import Mathlib

/-!
Shallow embedding of `src/generate_meta_supplemental_feed.py`.

The script authenticates against a Shopify shop, pages through the product
catalog via GraphQL, resolves an "author" metafield per product, fans the
value out to each variant carrying a usable `legacyResourceId`, and writes
the resulting rows to a CSV file.

JSON scalar values flowing out of the API are modelled by `JVal`; Python
truthiness (`if not x`) and `str(x)` coercion are modelled by `pyTruthy`
and `pyStr`.  The network is modelled as a list of raw responses handed to
the fetch loop in request order (a mocked transport).  Row dictionaries
`{"id": ..., META_LABEL_COL: ...}` are modelled by the two-field structure
`FeedRow`, which is faithful whenever the configured label column is not
itself the string "id".  Python's `str.strip()` is modelled by `pyStrip`,
which removes the ASCII whitespace characters stripped by Python.
-/

namespace MetaFeed

/-- A JSON scalar value as the script can observe it. -/
inductive JVal where
  | jnull
  | jstr (s : String)
  | jnum (n : Int)
  | jbool (b : Bool)
deriving DecidableEq, Repr

/-- Python truthiness of a JSON scalar (`bool(x)`). -/
def pyTruthy : JVal → Bool
  | .jnull => false
  | .jstr s => s ≠ ""
  | .jnum n => n ≠ 0
  | .jbool b => b

/-- Python `str(x)` on a JSON scalar. -/
def pyStr : JVal → String
  | .jnull => "None"
  | .jstr s => s
  | .jnum n => toString n
  | .jbool b => if b then "True" else "False"

/-- The ASCII whitespace characters removed by Python's `str.strip()`. -/
def isPySpace (c : Char) : Bool :=
  c = ' ' || c = '\t' || c = '\n' || c = '\r' || c = '\x0b' || c = '\x0c'

/-- Drop the longest leading run of characters satisfying `p`. -/
def dropLeading (p : Char → Bool) : List Char → List Char
  | [] => []
  | c :: cs => if p c then dropLeading p cs else c :: cs

/-- Python `str.strip()`: remove leading and trailing whitespace. -/
def pyStrip (s : String) : String :=
  ⟨(dropLeading isPySpace (dropLeading isPySpace s.data).reverse).reverse⟩

/-- The `metafield(namespace, key) { value }` object of a product node. -/
structure Metafield where
  value : JVal
deriving DecidableEq, Repr

/-- A variant node: the script reads only `legacyResourceId`
(`v.get("legacyResourceId")`; an absent key is `jnull`). -/
structure Variant where
  legacyResourceId : JVal
deriving DecidableEq, Repr

/-- A product node as consumed by `main`: title, the exact metafield lookup
(`null` modelled as `none`), and the variant edge list. -/
structure Product where
  title : String
  metafield : Option Metafield
  variants : List Variant
deriving DecidableEq, Repr

/-- One output row `{"id": str(variant_id), META_LABEL_COL: author}`. -/
structure FeedRow where
  id : String
  label : String
deriving DecidableEq, Repr

/-- Lines 121-123 of the script:
`author = str((mf.get("value") if mf else "") or "").strip()`. -/
def resolveAuthor (p : Product) : String :=
  let a : JVal := match p.metafield with
    | none => .jstr ""
    | some mf => mf.value
  let a : JVal := if pyTruthy a then a else .jstr ""
  pyStrip (pyStr a)

/-- Lines 142-144: `variant_id = v.get("legacyResourceId")`; skip when falsy,
otherwise the row id is `str(variant_id)`. -/
def variantId (v : Variant) : Option String :=
  if pyTruthy v.legacyResourceId then some (pyStr v.legacyResourceId) else none

/-- The mutable accumulators of `main`: `rows`, `total_products`,
`total_variants` (the latter is incremented once per appended row). -/
structure LoopState where
  rows : List FeedRow
  totalProducts : Nat
  totalVariants : Nat
deriving DecidableEq, Repr

/-- Initial accumulator values (lines 105-108). -/
def initState : LoopState := ⟨[], 0, 0⟩

/-- Body of the inner `for v_edge in p["variants"]["edges"]` loop
(lines 140-150) for a fixed resolved author. -/
def processVariant (author : String) (s : LoopState) (v : Variant) : LoopState :=
  match variantId v with
  | none => s
  | some i =>
    { s with rows := s.rows ++ [⟨i, author⟩], totalVariants := s.totalVariants + 1 }

/-- Body of the `for edge in products["edges"]` loop (lines 118-150):
resolve the author once; `continue` when it is empty, else run the
variant loop. -/
def processProduct (s : LoopState) (p : Product) : LoopState :=
  let author := resolveAuthor p
  if author = "" then s
  else p.variants.foldl (processVariant author) s

/-- One page of the `products` connection. -/
structure Page where
  edges : List Product
  hasNextPage : Bool
  endCursor : Option String
deriving DecidableEq, Repr

/-- Processing of one fetched page (lines 116-150):
`total_products += len(products["edges"])`, then the product loop. -/
def processPage (s : LoopState) (pg : Page) : LoopState :=
  let s := { s with totalProducts := s.totalProducts + pg.edges.length }
  pg.edges.foldl processProduct s

/-- A fatal condition raised by `gql`. -/
inductive FetchError where
  | httpFailure (status : Nat)
  | graphqlErrors
deriving DecidableEq, Repr

/-- A raw HTTP response to one GraphQL POST: status code, whether the JSON
payload has a top-level "errors" key, and the decoded `data.products`
payload used when the request succeeds. -/
structure RawResponse where
  status : Nat
  hasErrorsKey : Bool
  body : Page
deriving DecidableEq, Repr

/-- `gql` (lines 90-101): `r.raise_for_status()` raises for status codes in
[400, 600); then a payload with a top-level "errors" key raises; otherwise
the data is returned. -/
def gql (r : RawResponse) : Except FetchError Page :=
  if 400 ≤ r.status ∧ r.status < 600 then .error (.httpFailure r.status)
  else if r.hasErrorsKey then .error .graphqlErrors
  else .ok r.body

/-- Result of the `while True` fetch loop. -/
inductive Outcome where
  | done (s : LoopState)
  | fail (e : FetchError)
  | starved
deriving DecidableEq, Repr

/-- The `while True` loop of `main` (lines 113-154) run against a mocked
transport: the k-th issued request receives the k-th response of the list.
Returns the loop outcome together with the list of cursors sent, one per
issued request, in order.  `starved` marks the mock transport running out
of responses (a model artifact; the real API always answers). -/
def fetchLoop : List RawResponse → Option String → LoopState →
    Outcome × List (Option String)
  | [], _, _ => (.starved, [])
  | r :: rest, cursor, s =>
    match gql r with
    | .error e => (.fail e, [cursor])
    | .ok pg =>
      let s2 := processPage s pg
      if pg.hasNextPage then
        let res := fetchLoop rest pg.endCursor s2
        (res.1, cursor :: res.2)
      else (.done s2, [cursor])

/-- Whether a field must be quoted under QUOTE_MINIMAL: it contains the
delimiter, the quote character, or a line-terminator character. -/
def csvNeedsQuote (s : String) : Bool :=
  s.data.any fun c => c = ',' || c = '"' || c = '\n' || c = '\r'

/-- Double every quote character. -/
def escapeQuotes : List Char → List Char
  | [] => []
  | c :: cs => if c = '"' then '"' :: '"' :: escapeQuotes cs else c :: escapeQuotes cs

/-- Minimal CSV quoting as done by Python's `csv` module
(QUOTE_MINIMAL with delimiter `,`, quotechar `"`, lineterminator CRLF). -/
def csvField (s : String) : String :=
  if csvNeedsQuote s then "\"" ++ ⟨escapeQuotes s.data⟩ ++ "\"" else s

/-- Join fields with the `,` delimiter. -/
def joinComma : List String → String
  | [] => ""
  | [a] => a
  | a :: rest => a ++ "," ++ joinComma rest

/-- One CSV record terminated by CRLF. -/
def csvLine (fields : List String) : String :=
  joinComma (fields.map csvField) ++ "\r\n"

/-- The file written on lines 156-160: header `id,<label column>` then one
record per accumulated row. -/
def renderCsv (labelCol : String) (rows : List FeedRow) : String :=
  csvLine ["id", labelCol] ++ String.join (rows.map fun r => csvLine [r.id, r.label])

/-- Result of one run of `main` under the try/except of lines 177-182:
on success the CSV content is written and the two counters are printed;
on a raised error the process exits with status 1 and the file is never
opened. -/
inductive MainOutcome where
  | success (csv : String) (productsScanned rowsWritten : Nat)
  | failure (e : FetchError)
  | starved
deriving DecidableEq, Repr

/-- `main` against a mocked transport (lines 104-164). -/
def runMain (labelCol : String) (responses : List RawResponse) : MainOutcome :=
  match fetchLoop responses none initState with
  | (.done s, _) => .success (renderCsv labelCol s.rows) s.totalProducts s.totalVariants
  | (.fail e, _) => .failure e
  | (.starved, _) => .starved

/-- The CSV content written by a run, if any. -/
def writtenCsv : MainOutcome → Option String
  | .success csv _ _ => some csv
  | _ => none

/-- Process exit status of a run (lines 177-182): 0 on success, 1 when an
exception reaches the top-level handler. -/
def mainExitCode : MainOutcome → Nat
  | .success _ _ _ => 0
  | _ => 1

/-- The cursors sent by a full run, one per issued request, in order. -/
def requestsIssued (responses : List RawResponse) : List (Option String) :=
  (fetchLoop responses none initState).2

/-- `META_LABEL_COL = os.environ.get("META_LABEL_COL", "custom_label_0").strip()`
(line 19). -/
def META_LABEL_COL (env : Option String) : String :=
  pyStrip (env.getD "custom_label_0")

/-- Configuration relevant to credential resolution, after the `.strip()`
applied on lines 9-12. -/
structure Config where
  token : String
  clientId : String
  clientSecret : String
deriving DecidableEq, Repr

/-- What the credential bootstrap does first. -/
inductive AuthStep where
  | explicitToken (t : String)
  | exitConfigError (msg : String)
  | tokenExchangeRequest (clientId clientSecret : String)
deriving DecidableEq, Repr

/-- `get_access_token` up to its first network call (lines 24-39): raise a
configuration error when the client id or secret is empty, else POST the
client-credentials payload to the token endpoint. -/
def get_access_token_step (c : Config) : AuthStep :=
  if c.clientId = "" ∨ c.clientSecret = "" then
    .exitConfigError "Missing CLIENT_ID or CLIENT_SECRET (GitHub secrets)."
  else .tokenExchangeRequest c.clientId c.clientSecret

/-- Module-level credential resolution (lines 47-48):
`if not TOKEN: TOKEN = get_access_token()`.  An exception raised here is
unhandled (the try/except wraps only `main()`), so Python prints the error
and exits with status 1. -/
def authStep (c : Config) : AuthStep :=
  if c.token = "" then get_access_token_step c else .explicitToken c.token

/-- Whether an auth step issues a network request. -/
def authNetworkCall : AuthStep → Bool
  | .tokenExchangeRequest _ _ => true
  | _ => false

/-- Process exit status implied by an auth step, when it terminates the run. -/
def authExitCode : AuthStep → Option Nat
  | .exitConfigError _ => some 1
  | _ => none

/-! ## Closed forms of the accumulator folds -/

/-- Rows contributed by one product: none when the resolved author is empty,
else one row per variant carrying a usable identifier, in variant order. -/
def emitRows (p : Product) : List FeedRow :=
  if resolveAuthor p = "" then []
  else p.variants.filterMap fun v => (variantId v).map fun i => FeedRow.mk i (resolveAuthor p)

/-- Rows contributed by a product list, in order of first appearance. -/
def productsRows (ps : List Product) : List FeedRow := (ps.map emitRows).flatten

/-- All product nodes of a page list, in page order. -/
def allProducts (pages : List Page) : List Product := (pages.map Page.edges).flatten

/-- All rows produced from a page list. -/
def allRows (pages : List Page) : List FeedRow := productsRows (allProducts pages)

/-- An HTTP 200 response carrying a page and no top-level "errors" key. -/
def okResp (pg : Page) : RawResponse := ⟨200, false, pg⟩

/-- A page list in which the API reports a next page exactly until the last
element: every page but the last has `hasNextPage = true`, the last has
`hasNextPage = false`. -/
def goodPages : List Page → Bool
  | [] => true
  | [pg] => !pg.hasNextPage
  | pg :: rest => pg.hasNextPage && goodPages rest

theorem gql_okResp (pg : Page) : gql (okResp pg) = .ok pg := rfl

theorem fetchLoop_cons_ok_next (r : RawResponse) (pg : Page) (L : List RawResponse)
    (c : Option String) (s : LoopState)
    (hg : gql r = .ok pg) (hn : pg.hasNextPage = true) :
    fetchLoop (r :: L) c s =
      ((fetchLoop L pg.endCursor (processPage s pg)).1,
       c :: (fetchLoop L pg.endCursor (processPage s pg)).2) := by
  simp [fetchLoop, hg, hn]

theorem foldl_processVariant (author : String) (vs : List Variant) (s : LoopState) :
    vs.foldl (processVariant author) s =
      ⟨s.rows ++ vs.filterMap (fun v => (variantId v).map fun i => FeedRow.mk i author),
       s.totalProducts,
       s.totalVariants +
         (vs.filterMap (fun v => (variantId v).map fun i => FeedRow.mk i author)).length⟩ := by
  induction vs generalizing s with
  | nil => simp
  | cons v tl ih =>
    cases hv : variantId v with
    | none => simp [processVariant, hv, ih]
    | some i =>
      simp [processVariant, hv, ih, List.append_assoc]
      omega

theorem processProduct_eq (s : LoopState) (p : Product) :
    processProduct s p =
      ⟨s.rows ++ emitRows p, s.totalProducts, s.totalVariants + (emitRows p).length⟩ := by
  unfold processProduct emitRows
  by_cases h : resolveAuthor p = ""
  · simp [h]
  · simp [h, foldl_processVariant]

theorem foldl_processProduct (ps : List Product) (s : LoopState) :
    ps.foldl processProduct s =
      ⟨s.rows ++ productsRows ps, s.totalProducts,
       s.totalVariants + (productsRows ps).length⟩ := by
  induction ps generalizing s with
  | nil => simp [productsRows]
  | cons p tl ih =>
    simp [processProduct_eq, ih, productsRows, List.append_assoc]
    omega

theorem productsRows_append (a b : List Product) :
    productsRows (a ++ b) = productsRows a ++ productsRows b := by
  simp [productsRows]

theorem foldl_processPage (pages : List Page) (s : LoopState) :
    pages.foldl processPage s =
      ⟨s.rows ++ allRows pages,
       s.totalProducts + (pages.map fun pg => pg.edges.length).sum,
       s.totalVariants + (allRows pages).length⟩ := by
  induction pages generalizing s with
  | nil => simp [allRows, allProducts, productsRows]
  | cons pg tl ih =>
    have hpp : processPage s pg =
        ⟨s.rows ++ productsRows pg.edges, s.totalProducts + pg.edges.length,
         s.totalVariants + (productsRows pg.edges).length⟩ := by
      unfold processPage
      simpa using foldl_processProduct pg.edges _
    simp only [List.foldl_cons, hpp, ih]
    simp [allRows, allProducts, productsRows_append, List.append_assoc]
    omega

/-! ## Behaviour of the fetch loop -/

theorem fetchLoop_good (pages : List Page) (extra : List RawResponse) :
    pages ≠ [] → goodPages pages = true →
    ∀ (c : Option String) (s : LoopState),
      fetchLoop (pages.map okResp ++ extra) c s =
        (Outcome.done (pages.foldl processPage s),
         c :: pages.dropLast.map Page.endCursor) := by
  induction pages with
  | nil => intro hne; exact absurd rfl hne
  | cons pg rest ih =>
    intro _ hgood c s
    cases rest with
    | nil =>
      have hnp : pg.hasNextPage = false := by simpa [goodPages] using hgood
      simp [fetchLoop, gql_okResp, hnp]
    | cons pg2 tl =>
      have hsplit : pg.hasNextPage = true ∧ goodPages (pg2 :: tl) = true := by
        simpa [goodPages] using hgood
      have hrec := ih (by simp) hsplit.2 pg.endCursor (processPage s pg)
      rw [List.map_cons, List.cons_append,
        fetchLoop_cons_ok_next (okResp pg) pg _ c s (gql_okResp pg) hsplit.1, hrec]
      rfl

theorem runMain_good (pages : List Page) (extra : List RawResponse)
    (hne : pages ≠ []) (hgood : goodPages pages = true) (labelCol : String) :
    runMain labelCol (pages.map okResp ++ extra) =
      .success (renderCsv labelCol (allRows pages))
        ((pages.map fun pg => pg.edges.length).sum)
        (allRows pages).length := by
  unfold runMain
  rw [fetchLoop_good pages extra hne hgood none initState]
  simp [foldl_processPage, initState]

theorem fetchLoop_fail (rs : List RawResponse) :
    ∀ (i : Nat) (hi : i < rs.length) (e : FetchError),
      gql (rs.get ⟨i, hi⟩) = .error e →
      (∀ (j : Nat) (hj : j < i),
        ∃ pg, gql (rs.get ⟨j, Nat.lt_trans hj hi⟩) = .ok pg ∧ pg.hasNextPage = true) →
      ∀ (c : Option String) (s : LoopState), (fetchLoop rs c s).1 = .fail e := by
  induction rs with
  | nil => intro i hi; exact absurd hi (by simp)
  | cons r rest ih =>
    intro i hi e herr hprev c s
    cases i with
    | zero =>
      simp [fetchLoop, show gql r = .error e from herr]
    | succ j =>
      obtain ⟨pg, hok, hnext⟩ := hprev 0 (Nat.succ_pos j)
      have hok' : gql r = .ok pg := hok
      have hj' : j < rest.length := Nat.lt_of_succ_lt_succ hi
      have herr' : gql (rest.get ⟨j, hj'⟩) = .error e := herr
      have hprev' : ∀ (j2 : Nat) (hj2 : j2 < j),
          ∃ pg2, gql (rest.get ⟨j2, Nat.lt_trans hj2 hj'⟩) = .ok pg2 ∧
            pg2.hasNextPage = true := by
        intro j2 hj2
        exact hprev (j2 + 1) (Nat.succ_lt_succ hj2)
      simp [fetchLoop, hok', hnext]
      exact ih j hj' e herr' hprev' pg.endCursor (processPage s pg)

theorem fetchLoop_done_ok (rs : List RawResponse) :
    ∀ (c : Option String) (s s2 : LoopState),
      (fetchLoop rs c s).1 = .done s2 →
      ∀ (i : Nat), i < (fetchLoop rs c s).2.length →
        ∃ (hw : i < rs.length) (pg : Page), gql (rs.get ⟨i, hw⟩) = .ok pg := by
  induction rs with
  | nil =>
    intro c s s2 hdone
    simp [fetchLoop] at hdone
  | cons r rest ih =>
    intro c s s2 hdone i hi
    cases hg : gql r with
    | error e => simp [fetchLoop, hg] at hdone
    | ok pg =>
      by_cases hnext : pg.hasNextPage
      · cases i with
        | zero => exact ⟨by simp, pg, hg⟩
        | succ j =>
          have hdone' : (fetchLoop rest pg.endCursor (processPage s pg)).1 = .done s2 := by
            simpa [fetchLoop, hg, hnext] using hdone
          have hi' : j < (fetchLoop rest pg.endCursor (processPage s pg)).2.length := by
            have := hi
            simpa [fetchLoop, hg, hnext] using this
          obtain ⟨hw, pg2, hok2⟩ := ih pg.endCursor (processPage s pg) s2 hdone' j hi'
          exact ⟨Nat.succ_lt_succ hw, pg2, hok2⟩
      · have hz : i = 0 := by
          have : i < 1 := by simpa [fetchLoop, hg, hnext] using hi
          omega
        subst hz
        exact ⟨by simp, pg, hg⟩

theorem emitRows_length_le (p : Product) : (emitRows p).length ≤ p.variants.length := by
  unfold emitRows
  split
  · simp
  · simpa using List.length_filterMap_le _ p.variants

theorem productsRows_length_le (ps : List Product) :
    (productsRows ps).length ≤ (ps.map fun p => p.variants.length).sum := by
  induction ps with
  | nil => simp [productsRows]
  | cons p tl ih =>
    have : productsRows (p :: tl) = emitRows p ++ productsRows tl := by
      simp [productsRows]
    rw [this]
    simp only [List.length_append, List.map_cons, List.sum_cons]
    exact Nat.add_le_add (emitRows_length_le p) ih

/-! ## Concrete catalog data used by witnesses and counterexamples -/

/-- A product with author "Jane Doe" and variants 111 and 222. -/
def prodA : Product := ⟨"A", some ⟨.jstr "Jane Doe"⟩, [⟨.jstr "111"⟩, ⟨.jstr "222"⟩]⟩

/-- A product with no author metafield and variant 333. -/
def prodB : Product := ⟨"B", none, [⟨.jstr "333"⟩]⟩

/-- A single final page holding both sample products. -/
def pageW : Page := ⟨[prodA, prodB], false, none⟩

/-- A non-final page advertising cursor "c1". -/
def pageN1 : Page := ⟨[prodA], true, some "c1"⟩

/-- A final page holding only the labelless product. -/
def pageN2 : Page := ⟨[prodB], false, none⟩

/-- A product whose metafield value is the number 42 (a non-string). -/
def prodNum : Product := ⟨"t", some ⟨.jnum 42⟩, [⟨.jstr "111"⟩]⟩

/-- An HTTP 500 response. -/
def respErr : RawResponse := ⟨500, false, pageN2⟩

/-! ## Claims -/

/-- C1: for every fetched product, processing it appends to the accumulated
rows exactly one FeedRow per variant, present if and only if the product's
resolved label is a non-empty string and the variant exposes a non-empty
(truthy) `legacyResourceId`. -/
theorem claim_C1_row_emitted_iff (s : LoopState) (p : Product) :
    (processProduct s p).rows =
      s.rows ++ p.variants.filterMap fun v =>
        if resolveAuthor p ≠ "" ∧ pyTruthy v.legacyResourceId = true
        then some ⟨pyStr v.legacyResourceId, resolveAuthor p⟩ else none := by
  rw [processProduct_eq]
  by_cases h : resolveAuthor p = ""
  · simp [emitRows, h]
  · have hfun : (fun v => (variantId v).map fun i => FeedRow.mk i (resolveAuthor p)) =
        fun v => if resolveAuthor p ≠ "" ∧ pyTruthy v.legacyResourceId = true
          then some ⟨pyStr v.legacyResourceId, resolveAuthor p⟩ else none := by
      funext v
      cases hv : pyTruthy v.legacyResourceId <;> simp [variantId, hv, h]
    simp [emitRows, h, hfun]

/-- C5: the label is the trimmed metafield value with empty treated as
absent; when absent the product is skipped entirely (the state is unchanged,
so no rows for any of its variants), otherwise exactly one row is appended
per variant carrying a non-empty identifier. -/
theorem claim_C5_skip_or_fanout (s : LoopState) (p : Product) :
    (resolveAuthor p = "" → processProduct s p = s) ∧
    (resolveAuthor p ≠ "" →
      (processProduct s p).rows =
        s.rows ++ (p.variants.filterMap variantId).map fun i =>
          FeedRow.mk i (resolveAuthor p)) := by
  constructor
  · intro h
    simp [processProduct, h]
  · intro h
    rw [processProduct_eq]
    simp [emitRows, h, List.map_filterMap]

/-- C5 witness: the labelled sample product fans out to its usable variants. -/
theorem claim_C5_skip_or_fanout_witness :
    (processProduct initState prodA).rows =
      initState.rows ++ (prodA.variants.filterMap variantId).map fun i =>
        FeedRow.mk i (resolveAuthor prodA) :=
  (claim_C5_skip_or_fanout initState prodA).2 (by decide)

/-- C2: `gql` fails exactly on a non-success HTTP status or a payload with a
top-level "errors" key; if the first failing page request is reached, the run
ends in failure with exit status 1 and no CSV is written; and a run writes
the CSV only if every issued page request succeeded. -/
theorem claim_C2_fail_fast (labelCol : String) (rs : List RawResponse) :
    (∀ r : RawResponse, (∃ e, gql r = .error e) ↔
      ((400 ≤ r.status ∧ r.status < 600) ∨ r.hasErrorsKey = true)) ∧
    (∀ (i : Nat) (hi : i < rs.length) (e : FetchError),
      gql (rs.get ⟨i, hi⟩) = .error e →
      (∀ (j : Nat) (hj : j < i),
        ∃ pg, gql (rs.get ⟨j, Nat.lt_trans hj hi⟩) = .ok pg ∧ pg.hasNextPage = true) →
      runMain labelCol rs = .failure e ∧
      writtenCsv (runMain labelCol rs) = none ∧
      mainExitCode (runMain labelCol rs) = 1) ∧
    (∀ csv prodN rowN, runMain labelCol rs = .success csv prodN rowN →
      ∀ (i : Nat), i < (requestsIssued rs).length →
        ∃ (hw : i < rs.length) (pg : Page), gql (rs.get ⟨i, hw⟩) = .ok pg) := by
  refine ⟨?_, ?_, ?_⟩
  · intro r
    unfold gql
    by_cases h1 : 400 ≤ r.status ∧ r.status < 600
    · simp [h1]
    · by_cases h2 : r.hasErrorsKey <;> simp [h1, h2]
  · intro i hi e herr hprev
    have hfail := fetchLoop_fail rs i hi e herr hprev none initState
    have hrun : runMain labelCol rs = .failure e := by
      unfold runMain
      rcases hres : fetchLoop rs none initState with ⟨o, reqs⟩
      rw [hres] at hfail
      simp only at hfail
      subst hfail
      rfl
    exact ⟨hrun, by rw [hrun]; rfl, by rw [hrun]; rfl⟩
  · intro csv prodN rowN hsucc i hi
    rcases hres : fetchLoop rs none initState with ⟨o, reqs⟩
    have hi' : i < (fetchLoop rs none initState).2.length := by
      unfold requestsIssued at hi
      rw [hres] at hi ⊢
      exact hi
    unfold runMain at hsucc
    rw [hres] at hsucc
    cases o with
    | done s2 =>
      exact fetchLoop_done_ok rs none initState s2 (by rw [hres]) i hi'
    | fail e => simp at hsucc
    | starved => simp at hsucc

/-- C2 witness: an HTTP 500 on the first page request fails the run with
exit status 1 and no CSV content. -/
theorem claim_C2_fail_fast_witness :
    runMain "custom_label_0" [respErr] = .failure (.httpFailure 500) ∧
    writtenCsv (runMain "custom_label_0" [respErr]) = none ∧
    mainExitCode (runMain "custom_label_0" [respErr]) = 1 :=
  (claim_C2_fail_fast "custom_label_0" [respErr]).2.1 0 (by decide)
    (.httpFailure 500) rfl (fun j hj => absurd hj (Nat.not_lt_zero j))

/-- C3: against a mocked API whose pages report a next page exactly until
page N, the loop issues exactly N requests (even when further responses are
available), the first with no cursor and each subsequent one with the
previous page's end cursor, and then stops successfully. -/
theorem claim_C3_request_per_page (pages : List Page) (extra : List RawResponse)
    (hne : pages ≠ []) (hgood : goodPages pages = true) :
    (fetchLoop (pages.map okResp ++ extra) none initState).2.length = pages.length ∧
    (fetchLoop (pages.map okResp ++ extra) none initState).2 =
      none :: pages.dropLast.map Page.endCursor ∧
    ∃ s, (fetchLoop (pages.map okResp ++ extra) none initState).1 = Outcome.done s := by
  rw [fetchLoop_good pages extra hne hgood none initState]
  refine ⟨?_, rfl, ⟨_, rfl⟩⟩
  have hpos : 0 < pages.length := List.length_pos.mpr hne
  simp [List.length_dropLast]
  omega

/-- C3 witness: two mocked pages, the second final, with a spare response
available: exactly two requests, cursors none then "c1". -/
theorem claim_C3_request_per_page_witness :
    (fetchLoop ([pageN1, pageN2].map okResp ++ [respErr]) none initState).2.length =
      [pageN1, pageN2].length ∧
    (fetchLoop ([pageN1, pageN2].map okResp ++ [respErr]) none initState).2 =
      none :: [pageN1, pageN2].dropLast.map Page.endCursor ∧
    ∃ s, (fetchLoop ([pageN1, pageN2].map okResp ++ [respErr]) none initState).1 =
      Outcome.done s :=
  claim_C3_request_per_page [pageN1, pageN2] [respErr] (by simp) (by decide)

/-- C4: a non-empty explicit token is used as-is with no exchange; with no
token and a missing client id or secret the run stops with a configuration
error (exit status 1) before any network call; otherwise a client-credentials
exchange request is issued. -/
theorem claim_C4_credential_resolution (c : Config) :
    (c.token ≠ "" →
      authStep c = .explicitToken c.token ∧ authNetworkCall (authStep c) = false) ∧
    (c.token = "" → (c.clientId = "" ∨ c.clientSecret = "") →
      authStep c = .exitConfigError "Missing CLIENT_ID or CLIENT_SECRET (GitHub secrets)." ∧
      authExitCode (authStep c) = some 1 ∧ authNetworkCall (authStep c) = false) ∧
    (c.token = "" → c.clientId ≠ "" → c.clientSecret ≠ "" →
      authStep c = .tokenExchangeRequest c.clientId c.clientSecret) := by
  refine ⟨?_, ?_, ?_⟩
  · intro h
    unfold authStep
    rw [if_neg h]
    exact ⟨rfl, rfl⟩
  · intro h hcs
    have hs : authStep c =
        .exitConfigError "Missing CLIENT_ID or CLIENT_SECRET (GitHub secrets)." := by
      unfold authStep get_access_token_step
      rw [if_pos h, if_pos hcs]
    exact ⟨hs, by rw [hs]; rfl, by rw [hs]; rfl⟩
  · intro h h1 h2
    unfold authStep get_access_token_step
    rw [if_pos h, if_neg (not_or.mpr ⟨h1, h2⟩)]

/-- C4 witness: nothing configured at all resolves to the configuration
error with exit status 1 and no network call. -/
theorem claim_C4_credential_resolution_witness :
    authStep ⟨"", "", ""⟩ =
      .exitConfigError "Missing CLIENT_ID or CLIENT_SECRET (GitHub secrets)." ∧
    authExitCode (authStep ⟨"", "", ""⟩) = some 1 ∧
    authNetworkCall (authStep ⟨"", "", ""⟩) = false :=
  (claim_C4_credential_resolution ⟨"", "", ""⟩).2.1 rfl (Or.inl rfl)

/-- C6: two runs of `main` against the identical response sequence and the
identical configured label column produce byte-identical CSV output and the
same printed counts. -/
theorem claim_C6_byte_identical (labelCol : String) (rs : List RawResponse)
    (csv1 csv2 : String) (p1 v1 p2 v2 : Nat)
    (h1 : runMain labelCol rs = .success csv1 p1 v1)
    (h2 : runMain labelCol rs = .success csv2 p2 v2) :
    csv1 = csv2 ∧ p1 = p2 ∧ v1 = v2 := by
  rw [h1] at h2
  injection h2 with hcsv hp hv
  exact ⟨hcsv, hp, hv⟩

/-- C6 witness: re-running on the sample snapshot reproduces the same bytes. -/
theorem claim_C6_byte_identical_witness :
    ("id,custom_label_0\r\n111,Jane Doe\r\n222,Jane Doe\r\n" : String) =
      "id,custom_label_0\r\n111,Jane Doe\r\n222,Jane Doe\r\n" ∧
    (2 : Nat) = 2 ∧ (2 : Nat) = 2 :=
  claim_C6_byte_identical "custom_label_0" [okResp pageW] _ _ _ _ _ _
    (by decide) (by decide)

/-- C7 counterexample: on a catalog with one labelless product carrying one
variant, the run succeeds with an accumulated variant counter of 0, while
the sum of variant counts across fetched products is 1 — the counter counts
emitted rows, not variants. -/
theorem claim_C7_counterexample :
    ∃ csv prodN rowN,
      runMain "custom_label_0" [okResp pageN2] = .success csv prodN rowN ∧
      rowN ≠ (pageN2.edges.map fun p => p.variants.length).sum := by
  refine ⟨"id,custom_label_0\r\n", 1, 0, by decide, by decide⟩

/-- C7 amended: after the loop, the accumulated product count equals the
number of product nodes returned over all pages, the accumulated variant
counter equals the number of emitted rows (variants with a resolved author),
and both are the printed counts of the successful run. -/
theorem claim_C7_amended_counters (labelCol : String) (pages : List Page)
    (hne : pages ≠ []) (hgood : goodPages pages = true) :
    runMain labelCol (pages.map okResp) =
      .success (renderCsv labelCol (allRows pages))
        (allProducts pages).length (allRows pages).length := by
  have h := runMain_good pages [] hne hgood labelCol
  rw [List.append_nil] at h
  have hlen : (pages.map fun pg => pg.edges.length).sum = (allProducts pages).length := by
    simp only [allProducts, List.length_flatten, List.map_map]
    rfl
  rw [h, hlen]

/-- C7 amended witness: on the sample snapshot the printed counts are the
2 product nodes and the 2 emitted rows. -/
theorem claim_C7_amended_counters_witness :
    runMain "custom_label_0" ([pageW].map okResp) =
      .success (renderCsv "custom_label_0" (allRows [pageW]))
        (allProducts [pageW]).length (allRows [pageW]).length :=
  claim_C7_amended_counters "custom_label_0" [pageW] (by simp) (by decide)

/-- C8: after any number of processed pages, the number of accumulated rows
is at most the sum of variant counts across the products fetched so far. -/
theorem claim_C8_rows_le_variants (pages : List Page) (k : Nat) :
    (((pages.take k).foldl processPage initState).rows).length ≤
      ((allProducts (pages.take k)).map fun p => p.variants.length).sum := by
  rw [foldl_processPage]
  simpa [initState, allRows] using productsRows_length_le (allProducts (pages.take k))

/-- C9: the label column defaults to `custom_label_0`; for a label column
needing no CSV quoting the output is exactly the header `id,<label column>`
followed by one CRLF-terminated record per surviving row and nothing else;
and a successful run writes exactly the rendering of its surviving rows. -/
theorem claim_C9_csv_shape :
    META_LABEL_COL none = "custom_label_0" ∧
    (∀ (labelCol : String) (rows : List FeedRow), csvField labelCol = labelCol →
      renderCsv labelCol rows =
        ("id," ++ labelCol ++ "\r\n") ++
          String.join (rows.map fun r => csvLine [r.id, r.label])) ∧
    (∀ (labelCol : String) (pages : List Page), pages ≠ [] → goodPages pages = true →
      ∃ prodN rowN, runMain labelCol (pages.map okResp) =
        .success (renderCsv labelCol (allRows pages)) prodN rowN) := by
  refine ⟨by decide, ?_, ?_⟩
  · intro labelCol rows hfield
    unfold renderCsv csvLine
    rw [List.map_cons, List.map_cons, List.map_nil, hfield]
    rfl
  · intro labelCol pages hne hgood
    have h := runMain_good pages [] hne hgood labelCol
    rw [List.append_nil] at h
    exact ⟨_, _, h⟩

/-- C9 witness: rendering one surviving row under the default label column. -/
theorem claim_C9_csv_shape_witness :
    renderCsv "custom_label_0" [FeedRow.mk "111" "Jane Doe"] =
      ("id," ++ "custom_label_0" ++ "\r\n") ++
        String.join ([FeedRow.mk "111" "Jane Doe"].map fun r => csvLine [r.id, r.label]) :=
  claim_C9_csv_shape.2.1 "custom_label_0" [FeedRow.mk "111" "Jane Doe"] (by decide)

/-- C10 counterexample: a product whose metafield value is the number 42 — a
non-string — is not treated as having an empty label: its label resolves to
"42" and a row is emitted for its variant instead of the product being
skipped. -/
theorem claim_C10_counterexample :
    resolveAuthor prodNum = "42" ∧
    processProduct initState prodNum ≠ initState ∧
    (processProduct initState prodNum).rows = [FeedRow.mk "111" "42"] := by
  refine ⟨by decide, by decide, by decide⟩

/-- C10 amended: label resolution is total; an absent metafield, or a falsy
value (null, false, zero, the empty string), resolves to the empty label and
the product is silently skipped; a truthy value — string or not — is coerced
with `str()` and stripped, and the product proceeds with that label. -/
theorem claim_C10_amended_total (s : LoopState) (p : Product) :
    ((p.metafield = none ∨ ∃ mf, p.metafield = some mf ∧ pyTruthy mf.value = false) →
      resolveAuthor p = "" ∧ processProduct s p = s) ∧
    (∀ mf, p.metafield = some mf → pyTruthy mf.value = true →
      resolveAuthor p = pyStrip (pyStr mf.value)) := by
  constructor
  · rintro (hm | ⟨mf, hm, hf⟩)
    · have h0 : resolveAuthor p = "" := by
        unfold resolveAuthor
        rw [hm]
        rfl
      exact ⟨h0, by simp [processProduct, h0]⟩
    · have h0 : resolveAuthor p = "" := by
        unfold resolveAuthor
        rw [hm]
        simp only [hf]
        rfl
      exact ⟨h0, by simp [processProduct, h0]⟩
  · intro mf hm ht
    unfold resolveAuthor
    rw [hm]
    simp [ht]

/-- C10 amended witness: the product with an absent metafield resolves to
the empty label and is skipped without error. -/
theorem claim_C10_amended_total_witness :
    resolveAuthor prodB = "" ∧ processProduct initState prodB = initState :=
  (claim_C10_amended_total initState prodB).1 (Or.inl rfl)

end MetaFeed
